import Mathlib

/-!
Verification of the CSV bulk-ingestion pipeline of the orders-management
backend (`backend/app/routers/upload.py`, with the table declared in
`backend/app/models.py`).

The embedding mirrors `upload_orders_csv` row by row:
* `RawRow` is one record produced by `csv.DictReader`.  The Python runtime
  primitives `int(...)`, `float(...)` and `datetime.fromisoformat(...)` are
  library functions outside the repository, so a `RawRow` carries their
  results directly: an `Option Int` / `Option Rat` / `Option Int` that is
  `none` exactly when the primitive would raise `ValueError` on the raw
  string.  `quantity`, `unit_price` and `total_amount` default to `some 0`
  because a missing CSV column defaults to the Python literal `0`.
* `parseRow` is the body of the per-row `try:` block (dict construction in
  source order followed by the four `ValueError` checks).
* `Store` models the `orders` table as reachable through the single
  `INSERT ... ON CONFLICT (order_id) DO UPDATE` statement: an ordered list
  of rows with an identity counter; `func.now()` is the parameter `now`.
* The coordinator state is split into `Acct` (the local counters, error
  list and pending batch of `upload_orders_csv`) and the `Store`, stepped
  in lockstep; the success or failure of the k-th `db.execute`/`db.commit`
  is an oracle `Nat → Bool` since it depends on the external database.
-/

namespace OrdersUpload

/-- One record of `csv.DictReader` over the decoded file: the raw string
columns, with the Python conversion primitives applied.  A `none` in
`quantity` / `unit_price` / `total_amount` / `order_date` records that
`int(...)`, `float(...)` or `datetime.fromisoformat(...)` would raise
`ValueError` on that cell; timestamps are abstracted to integers. -/
structure RawRow where
  order_id : String := ""
  customer_email : String := ""
  customer_name : String := ""
  product_name : String := ""
  quantity : Option Int := some 0
  unit_price : Option Rat := some 0
  total_amount : Option Rat := some 0
  status : String := ""
  order_date : Option Int := some 0
deriving DecidableEq

/-- The `order_data` dict built at `upload.py:80-90` once every conversion
succeeded. -/
structure OrderData where
  order_id : String
  customer_email : String
  customer_name : String
  product_name : String
  quantity : Int
  unit_price : Rat
  total_amount : Rat
  status : String
  order_date : Int
deriving DecidableEq

/-- The distinct `ValueError` causes a row can raise inside the per-row
`try:` block: the four conversion failures (in dict-construction order)
and the four explicit validation raises of `upload.py:93-100`. -/
inductive RowError
  | quantityParse
  | unitPriceParse
  | totalAmountParse
  | orderDateParse
  | orderIdRequired
  | customerEmailRequired
  | quantityNotPositive
  | unitPriceNotPositive
deriving DecidableEq

/-- The human-readable message attached to each `ValueError`; the last four
are the literal strings of `upload.py:94-100`. -/
def RowError.message : RowError → String
  | .quantityParse => "invalid literal for int() with base 10"
  | .unitPriceParse => "could not convert string to float: unit_price"
  | .totalAmountParse => "could not convert string to float: total_amount"
  | .orderDateParse => "Invalid isoformat string"
  | .orderIdRequired => "order_id is required"
  | .customerEmailRequired => "customer_email is required"
  | .quantityNotPositive => "quantity must be positive"
  | .unitPriceNotPositive => "unit_price must be positive"

/-- The whitespace class stripped by Python's `str.strip()`. -/
def pySpace (c : Char) : Bool :=
  c == ' ' || c == '\t' || c == '\n' || c == '\x0d' || c == '\x0b' || c == '\x0c'

/-- Python's `str.strip()`: drop leading and trailing whitespace. -/
def pyStrip (s : String) : String :=
  ⟨((s.data.dropWhile pySpace).reverse.dropWhile pySpace).reverse⟩

/-- Python's `str.lower()` on the ASCII range. -/
def pyLowerChar (c : Char) : Char :=
  if c.toNat < 65 then c
  else if c.toNat ≤ 90 then Char.ofNat (c.toNat + 32)
  else c

def pyLower (s : String) : String := ⟨s.data.map pyLowerChar⟩

/-- Python's `str.endswith(t)`. -/
def pyEndsWith (s t : String) : Bool := t.data.isSuffixOf s.data

/-- The typed record built from a raw row whose four conversions succeeded:
string fields trimmed, `status` also lowercased (`upload.py:81-89`). -/
def RawRow.toData (row : RawRow) (q : Int) (up ta : Rat) (od : Int) : OrderData :=
  { order_id := pyStrip row.order_id
    customer_email := pyStrip row.customer_email
    customer_name := pyStrip row.customer_name
    product_name := pyStrip row.product_name
    quantity := q
    unit_price := up
    total_amount := ta
    status := pyLower (pyStrip row.status)
    order_date := od }

/-- The per-row `try:` block of `upload.py:78-100`: build `order_data`
(the first failing conversion raises, in dict-construction order
`quantity`, `unit_price`, `total_amount`, `order_date`), then run the four
validation checks in source order. -/
def parseRow (row : RawRow) : Except RowError OrderData :=
  match row.quantity with
  | none => .error .quantityParse
  | some q =>
    match row.unit_price with
    | none => .error .unitPriceParse
    | some up =>
      match row.total_amount with
      | none => .error .totalAmountParse
      | some ta =>
        match row.order_date with
        | none => .error .orderDateParse
        | some od =>
          let d := row.toData q up ta od
          if d.order_id = "" then .error .orderIdRequired
          else if d.customer_email = "" then .error .customerEmailRequired
          else if d.quantity ≤ 0 then .error .quantityNotPositive
          else if d.unit_price ≤ 0 then .error .unitPriceNotPositive
          else .ok d

/-- One row of the `orders` table (`models.py:15-33`): the payload columns,
the identity columns `id` / `order_id`, and the audit timestamps. -/
structure StoredOrder where
  id : Nat
  order_id : String
  customer_email : String
  customer_name : String
  product_name : String
  quantity : Int
  unit_price : Rat
  total_amount : Rat
  status : String
  order_date : Int
  created_at : Int
  updated_at : Int
deriving DecidableEq

/-- The relational store: the `orders` table as an ordered list of rows
plus the primary-key allocator. -/
structure Store where
  nextId : Nat
  rows : List StoredOrder
deriving DecidableEq

def emptyStore : Store := ⟨1, []⟩

/-- Row selection by the unique business key `order_id`. -/
def Store.lookup (s : Store) (oid : String) : Option StoredOrder :=
  s.rows.find? (fun o => o.order_id == oid)

/-- The `DO UPDATE SET` part of the upsert (`upload.py:113-119`): overwrite
every column except `id`, `order_id`, `created_at`, `updated_at`, then
force `updated_at = now()`. -/
def StoredOrder.setData (o : StoredOrder) (r : OrderData) (now : Int) : StoredOrder :=
  { o with
    customer_email := r.customer_email
    customer_name := r.customer_name
    product_name := r.product_name
    quantity := r.quantity
    unit_price := r.unit_price
    total_amount := r.total_amount
    status := r.status
    order_date := r.order_date
    updated_at := now }

/-- A fresh insert: `created_at` and `updated_at` take the server default
`now()` (`models.py:32-33`). -/
def newStored (i : Nat) (r : OrderData) (now : Int) : StoredOrder :=
  { id := i
    order_id := r.order_id
    customer_email := r.customer_email
    customer_name := r.customer_name
    product_name := r.product_name
    quantity := r.quantity
    unit_price := r.unit_price
    total_amount := r.total_amount
    status := r.status
    order_date := r.order_date
    created_at := now
    updated_at := now }

/-- The payload columns of a stored row, for comparison with incoming
records. -/
def StoredOrder.payload (o : StoredOrder) : OrderData :=
  { order_id := o.order_id
    customer_email := o.customer_email
    customer_name := o.customer_name
    product_name := o.product_name
    quantity := o.quantity
    unit_price := o.unit_price
    total_amount := o.total_amount
    status := o.status
    order_date := o.order_date }

/-- Effect of the `INSERT ... ON CONFLICT (order_id) DO UPDATE` statement
on one incoming record: update in place when the key exists, append a
fresh row otherwise. -/
def upsertOne (s : Store) (r : OrderData) (now : Int) : Store :=
  match s.lookup r.order_id with
  | some _ =>
    { s with rows := s.rows.map (fun o =>
        if o.order_id == r.order_id then o.setData r now else o) }
  | none =>
    { nextId := s.nextId + 1, rows := s.rows ++ [newStored s.nextId r now] }

/-- Effect of the single upsert statement over a whole batch
(`upload.py:111-127`). -/
def applyBatch (s : Store) (recs : List OrderData) (now : Int) : Store :=
  recs.foldl (fun acc r => upsertOne acc r now) s

/-- One step of the dict comprehension
`{item['order_id']: item for item in batch}`: a repeated key keeps its
first position but takes the new value, a new key is appended. -/
def dedupInsert (acc : List OrderData) (r : OrderData) : List OrderData :=
  if acc.any (fun x => x.order_id == r.order_id) then
    acc.map (fun x => if x.order_id == r.order_id then r else x)
  else acc ++ [r]

/-- `list(dedup_map.values())` of `upload.py:108-109` / `150-151`:
collapse the batch by `order_id`, last occurrence wins. -/
def dedupBatch (b : List OrderData) : List OrderData := b.foldl dedupInsert []

def BATCH_SIZE : Nat := 1000

def MAX_FILE_SIZE : Nat := 100 * 1024 * 1024

/-- The local accounting state of `upload_orders_csv` (`upload.py:68-72`):
counters, error list, pending batch, plus the number of flush attempts so
far (used to index the database oracle). -/
structure Acct where
  processed : Nat
  created : Nat
  failed : Nat
  flushes : Nat
  errors : List String
  batch : List OrderData
deriving DecidableEq

def initAcct : Acct := ⟨0, 0, 0, 0, [], []⟩

/-- The full coordinator state: accounting plus the store. -/
structure RunState where
  acct : Acct
  store : Store
deriving DecidableEq

/-- Accounting effect of one flush (`upload.py:106-135` / `148-172`):
on success count the deduplicated batch as created; on failure
(`except` branch) count the raw batch as failed and append one aggregated
error message — note the append is not guarded by the 100-entry cap.
Either way the buffer empties. -/
def flushAcct (oracle : Nat → Bool) (failMsg : String) (a : Acct) : Acct :=
  if oracle a.flushes then
    { a with
      created := a.created + (dedupBatch a.batch).length
      batch := []
      flushes := a.flushes + 1 }
  else
    { a with
      failed := a.failed + a.batch.length
      errors := a.errors ++ [failMsg]
      batch := []
      flushes := a.flushes + 1 }

/-- Store effect of one flush: the committed upsert on success, the
`db.rollback()` (no change) on failure. -/
def flushStore (oracle : Nat → Bool) (now : Int) (a : Acct) (s : Store) : Store :=
  if oracle a.flushes then applyBatch s (dedupBatch a.batch) now else s

def flushRun (oracle : Nat → Bool) (now : Int) (failMsg : String)
    (st : RunState) : RunState :=
  { acct := flushAcct oracle failMsg st.acct
    store := flushStore oracle now st.acct st.store }

/-- Error formatting of `upload.py:140`: `f"Row {row_num}: {str(e)}"`. -/
def rowErrorMessage (rowNum : Nat) (e : RowError) : String :=
  "Row " ++ toString rowNum ++ ": " ++ e.message

/-- The `except ValueError` branch (`upload.py:137-140`): count the row as
failed; record the message only while fewer than 100 are recorded. -/
def recordRowError (a : Acct) (rowNum : Nat) (e : RowError) : Acct :=
  { a with
    failed := a.failed + 1
    errors :=
      if a.errors.length < 100 then a.errors ++ [rowErrorMessage rowNum e]
      else a.errors }

/-- Accounting effect of one loop iteration of `upload.py:75-144`. -/
def stepAcct (oracle : Nat → Bool) (rowNum : Nat) (row : RawRow) (a : Acct) : Acct :=
  let a1 : Acct := { a with processed := a.processed + 1 }
  match parseRow row with
  | .error e => recordRowError a1 rowNum e
  | .ok d =>
    let a2 : Acct := { a1 with batch := a1.batch ++ [d] }
    if BATCH_SIZE ≤ a2.batch.length then flushAcct oracle "Batch insert failed" a2
    else a2

/-- Store effect of one loop iteration: only a successful full-batch flush
touches the store. -/
def stepStore (oracle : Nat → Bool) (now : Int) (row : RawRow) (a : Acct)
    (s : Store) : Store :=
  match parseRow row with
  | .error _ => s
  | .ok d =>
    let b := a.batch ++ [d]
    if BATCH_SIZE ≤ b.length then flushStore oracle now { a with batch := b } s
    else s

/-- One iteration of the row loop on the combined state. -/
def stepRow (oracle : Nat → Bool) (now : Int) (st : RunState) (rowNum : Nat)
    (row : RawRow) : RunState :=
  { acct := stepAcct oracle rowNum row st.acct
    store := stepStore oracle now row st.acct st.store }

/-- The row loop (`for row_num, row in enumerate(csv_reader, start=2)`). -/
def runRows (oracle : Nat → Bool) (now : Int) :
    RunState → Nat → List RawRow → RunState
  | st, _, [] => st
  | st, n, r :: rs => runRows oracle now (stepRow oracle now st n r) (n + 1) rs

/-- The whole processing phase: the row loop followed by the
`if batch:` final flush of `upload.py:146-172`. -/
def runUpload (oracle : Nat → Bool) (now : Int) (store : Store)
    (rows : List RawRow) : RunState :=
  let st := runRows oracle now ⟨initAcct, store⟩ 2 rows
  if st.acct.batch.isEmpty then st
  else flushRun oracle now "Final batch insert failed" st

/-- Accounting-only image of the row loop. -/
def runAcctRows (oracle : Nat → Bool) : Acct → Nat → List RawRow → Acct
  | a, _, [] => a
  | a, n, r :: rs => runAcctRows oracle (stepAcct oracle n r a) (n + 1) rs

/-- Accounting-only image of the whole processing phase. -/
def runUploadAcct (oracle : Nat → Bool) (rows : List RawRow) : Acct :=
  let a := runAcctRows oracle initAcct 2 rows
  if a.batch.isEmpty then a else flushAcct oracle "Final batch insert failed" a

/-- The uploaded payload as seen by the endpoint before row processing:
its filename, its byte length, whether its bytes decode as UTF-8 (the
`utf-8-sig` codec, which also swallows an optional BOM), and the data rows
the CSV reader would yield once decoded. -/
structure Payload where
  filename : String
  size : Nat
  decodable : Bool
  rows : List RawRow
deriving DecidableEq

/-- Outcome of the endpoint: an `HTTPException`-style fatal response, or
the `UploadResponse` summary of `upload.py:176-182`. -/
inductive UploadOutcome
  | fatal (statusCode : Nat) (detail : String)
  | report (message : String) (recordsProcessed recordsCreated recordsFailed : Nat)
      (errors : Option (List String))
deriving DecidableEq

def UploadOutcome.isFatal400 : UploadOutcome → Bool
  | .fatal c _ => c == 400
  | .report _ _ _ _ _ => false

/-- The endpoint `upload_orders_csv` (`upload.py:42-182`): the fatal
payload checks in source order — extension, size ceiling, decodability —
then the processing phase; returns the outcome together with the final
state of the store. -/
def uploadOrdersCsv (oracle : Nat → Bool) (now : Int) (store : Store)
    (p : Payload) : UploadOutcome × Store :=
  if pyEndsWith p.filename ".csv" = false then
    (.fatal 400 "File must be a CSV", store)
  else if MAX_FILE_SIZE < p.size then
    (.fatal 400 "File size exceeds maximum allowed size of 100.0MB", store)
  else if p.decodable = false then
    (.fatal 400 "Invalid file encoding. Please use UTF-8", store)
  else
    let st := runUpload oracle now store p.rows
    (.report "CSV processing completed" st.acct.processed st.acct.created
      st.acct.failed
      (if st.acct.errors.isEmpty then none else some st.acct.errors),
     st.store)

/-- The key (business-key) projection of a batch. -/
def keysOf (l : List OrderData) : List String := l.map (fun r => r.order_id)

/-- The records of the file that pass the row parser, in file order. -/
def validData (rows : List RawRow) : List OrderData :=
  rows.filterMap (fun r => (parseRow r).toOption)

/-- Whether the row parser rejects a raw row. -/
def rowFails (r : RawRow) : Bool :=
  match parseRow r with
  | .error _ => true
  | .ok _ => false

/-- Whether a row error is one of the four conversion (`ValueError`)
failures, as opposed to an explicit validation raise. -/
def isParseFailure : RowError → Bool
  | .quantityParse => true
  | .unitPriceParse => true
  | .totalAmountParse => true
  | .orderDateParse => true
  | .orderIdRequired => false
  | .customerEmailRequired => false
  | .quantityNotPositive => false
  | .unitPriceNotPositive => false

/-- Modelled from the spec (section 4.1): the first violated field
constraint in the fixed order `order_id` non-empty → `customer_email`
non-empty → `quantity > 0` → `unit_price > 0`. -/
def specFirstViolation (d : OrderData) : Option RowError :=
  if d.order_id = "" then some .orderIdRequired
  else if d.customer_email = "" then some .customerEmailRequired
  else if ¬ (0 < d.quantity) then some .quantityNotPositive
  else if ¬ (0 < d.unit_price) then some .unitPriceNotPositive
  else none

/-- The record under key `id` was upserted at time `t` during a run that
started from store `s0`: its `updated_at` is `t` and its `created_at` is
inherited from `s0` when the key pre-existed, and is `t` otherwise. -/
def touchedAt (s0 s : Store) (t : Int) (id : String) : Prop :=
  ((s.lookup id).map fun o => o.updated_at) = some t ∧
  ((s.lookup id).map fun o => o.created_at) =
    some ((s0.lookup id).elim t fun o => o.created_at)

/-- Every key of `s` is either untouched relative to `s0` or was upserted
at time `t`. -/
def frameOrTouched (s0 s : Store) (t : Int) : Prop :=
  ∀ id, touchedAt s0 s t id ∨ s.lookup id = s0.lookup id

/-! Concrete inputs used to evaluate the model. -/

/-- A fully valid raw row with the given key and status. -/
def sampleRow (oid : String) (st : String) : RawRow :=
  { order_id := oid
    customer_email := "a@x.com"
    customer_name := "Al"
    product_name := "P"
    quantity := some 1
    unit_price := some 2
    total_amount := some 2
    status := st
    order_date := some 5 }

/-- A raw row with every cell empty: it fails validation with
`order_id is required`. -/
def blankRow : RawRow := {}

/-- A raw row that passes the four checks of `upload.py:93-100` while
violating several constraints listed in the spec data model: empty
`customer_name` and `product_name`, a non-email `customer_email`, a
negative `total_amount` and a status outside the enumeration. -/
def sneakyRow : RawRow :=
  { order_id := "A"
    customer_email := "not-an-email"
    customer_name := ""
    product_name := ""
    quantity := some 1
    unit_price := some 1
    total_amount := some (-5)
    status := "Bogus"
    order_date := some 0 }

/-- 100 malformed rows followed by one valid row: feeding this to a run
whose batch flush fails produces 100 capped row errors plus one uncapped
batch error. -/
def manyBadRows : List RawRow := List.replicate 100 blankRow ++ [sampleRow "A" "pending"]

/-- A typed valid record with key `A`. -/
def sampleData : OrderData :=
  { order_id := "A"
    customer_email := "a@x.com"
    customer_name := "Al"
    product_name := "P"
    quantity := 1
    unit_price := 2
    total_amount := 2
    status := "pending"
    order_date := 5 }

/-- Same key as `sampleData`, different payload. -/
def sampleData2 : OrderData := { sampleData with status := "shipped" }

/-- A coordinator state whose pending batch holds two records with the
same key. -/
def dupAcct : Acct :=
  { processed := 2, created := 0, failed := 0, flushes := 0, errors := []
    batch := [sampleData, sampleData2] }

def dupState : RunState := { acct := dupAcct, store := emptyStore }

/-! ### Basic facts about the store primitives -/

theorem setData_order_id (o : StoredOrder) (r : OrderData) (now : Int) :
    (o.setData r now).order_id = o.order_id := rfl

theorem setData_id (o : StoredOrder) (r : OrderData) (now : Int) :
    (o.setData r now).id = o.id := rfl

theorem setData_created_at (o : StoredOrder) (r : OrderData) (now : Int) :
    (o.setData r now).created_at = o.created_at := rfl

theorem setData_updated_at (o : StoredOrder) (r : OrderData) (now : Int) :
    (o.setData r now).updated_at = now := rfl

theorem setData_payload (o : StoredOrder) (r : OrderData) (now : Int)
    (h : o.order_id = r.order_id) : (o.setData r now).payload = r := by
  cases r
  simp [StoredOrder.setData, StoredOrder.payload] at h ⊢
  exact h

theorem newStored_payload (i : Nat) (r : OrderData) (now : Int) :
    (newStored i r now).payload = r := by
  cases r; rfl

/-- The updating branch of the upsert keeps every row's key. -/
theorem upsert_map_key (r : OrderData) (now : Int) (o : StoredOrder) :
    (if o.order_id == r.order_id then o.setData r now else o).order_id = o.order_id := by
  by_cases h : o.order_id == r.order_id <;> simp [h, setData_order_id]

theorem upsertOne_lookup_frame (s : Store) (r : OrderData) (now : Int) (oid : String)
    (h : oid ≠ r.order_id) : (upsertOne s r now).lookup oid = s.lookup oid := by
  have hlook : s.lookup oid = s.rows.find? (fun o => o.order_id == oid) := rfl
  unfold upsertOne
  cases hl : s.lookup r.order_id with
  | some o =>
    show (s.rows.map fun o =>
        if o.order_id == r.order_id then o.setData r now else o).find?
        (fun o => o.order_id == oid) = s.lookup oid
    rw [List.find?_map]
    have hcomp :
        ((fun o : StoredOrder => o.order_id == oid) ∘
          fun o : StoredOrder => if o.order_id == r.order_id then o.setData r now else o) =
        fun o : StoredOrder => o.order_id == oid := by
      funext o
      simp only [Function.comp_apply, upsert_map_key]
    rw [hcomp, hlook]
    cases hf : s.rows.find? (fun o => o.order_id == oid) with
    | none => simp
    | some o' =>
      have hkey : o'.order_id = oid := by
        have := List.find?_some hf
        simpa using this
      simp [hkey, h]
  | none =>
    show (s.rows ++ [newStored s.nextId r now]).find? (fun o => o.order_id == oid) =
      s.lookup oid
    rw [List.find?_append, hlook]
    have hlast : ([newStored s.nextId r now].find? (fun o => o.order_id == oid)) = none := by
      simp [newStored, Ne.symm h]
    rw [hlast]
    cases s.rows.find? (fun o => o.order_id == oid) <;> rfl

theorem upsertOne_lookup_conflict (s : Store) (r : OrderData) (now : Int) (o : StoredOrder)
    (h : s.lookup r.order_id = some o) :
    (upsertOne s r now).lookup r.order_id = some (o.setData r now) := by
  have hkey : o.order_id = r.order_id := by
    have := List.find?_some h
    simpa using this
  unfold upsertOne
  rw [h]
  show (s.rows.map _).find? _ = _
  rw [List.find?_map]
  have hcomp :
      ((fun x : StoredOrder => x.order_id == r.order_id) ∘
        fun x : StoredOrder => if x.order_id == r.order_id then x.setData r now else x) =
      fun x : StoredOrder => x.order_id == r.order_id := by
    funext x
    simp only [Function.comp_apply, upsert_map_key]
  rw [hcomp]
  have hf : s.rows.find? (fun x => x.order_id == r.order_id) = some o := h
  rw [hf]
  simp [hkey]

theorem upsertOne_lookup_fresh (s : Store) (r : OrderData) (now : Int)
    (h : s.lookup r.order_id = none) :
    (upsertOne s r now).lookup r.order_id = some (newStored s.nextId r now) := by
  unfold upsertOne
  rw [h]
  show (s.rows ++ [newStored s.nextId r now]).find? _ = _
  rw [List.find?_append]
  have hf : s.rows.find? (fun x => x.order_id == r.order_id) = none := h
  rw [hf]
  simp [newStored]

/-! ### The intra-batch deduplication map -/

theorem dedupBatch_append_one (l : List OrderData) (r : OrderData) :
    dedupBatch (l ++ [r]) = dedupInsert (dedupBatch l) r := by
  simp [dedupBatch, List.foldl_append]

theorem dedupInsert_key_of_mem (m : List OrderData) (r : OrderData)
    (hmem : m.any (fun x => x.order_id == r.order_id) = true) :
    dedupInsert m r = m.map (fun x => if x.order_id == r.order_id then r else x) := by
  simp [dedupInsert, hmem]

theorem dedupInsert_key_of_not_mem (m : List OrderData) (r : OrderData)
    (hmem : m.any (fun x => x.order_id == r.order_id) = false) :
    dedupInsert m r = m ++ [r] := by
  simp [dedupInsert, hmem]

/-- The replacement step of the dict comprehension keeps every key. -/
theorem dedup_map_key (r x : OrderData) :
    (if x.order_id == r.order_id then r else x).order_id = x.order_id := by
  by_cases h : x.order_id == r.order_id
  · simp [h]; exact (eq_of_beq h).symm
  · simp [h]

/-- Main characterization of the dict comprehension: its keys are
pairwise distinct and, for every key, selection from the deduplicated
batch yields the last occurrence in batch order. -/
theorem dedupBatch_spec (l : List OrderData) :
    (keysOf (dedupBatch l)).Nodup ∧
    ∀ id, (dedupBatch l).find? (fun x => x.order_id == id) =
      l.reverse.find? (fun x => x.order_id == id) := by
  induction l using List.reverseRecOn with
  | nil => simp [dedupBatch, keysOf]
  | append_singleton l r ih =>
    obtain ⟨ihnd, ihfind⟩ := ih
    rw [dedupBatch_append_one]
    by_cases hmem : (dedupBatch l).any (fun x => x.order_id == r.order_id) = true
    · rw [dedupInsert_key_of_mem _ _ hmem]
      constructor
      · have hkeys : keysOf ((dedupBatch l).map fun x =>
            if x.order_id == r.order_id then r else x) = keysOf (dedupBatch l) := by
          simp only [keysOf, List.map_map]
          congr 1
          funext x
          simp only [Function.comp_apply, dedup_map_key]
        rw [hkeys]; exact ihnd
      · intro id
        rw [List.find?_map]
        have hcomp : ((fun x : OrderData => x.order_id == id) ∘
            fun x : OrderData => if x.order_id == r.order_id then r else x) =
            fun x : OrderData => x.order_id == id := by
          funext x
          simp only [Function.comp_apply, dedup_map_key]
        rw [hcomp, ihfind id, List.reverse_append]
        simp only [List.reverse_singleton, List.singleton_append]
        by_cases hid : r.order_id = id
        · subst hid
          have hsome : ∃ o, l.reverse.find? (fun x => x.order_id == r.order_id) = some o := by
            have := hmem
            rw [List.any_eq_true] at this
            obtain ⟨x, hx, hpx⟩ := this
            have : ∃ o, (dedupBatch l).find? (fun y => y.order_id == r.order_id) = some o := by
              rw [Option.isSome_iff_exists.symm, List.find?_isSome]
              exact ⟨x, hx, hpx⟩
            rwa [ihfind] at this
          obtain ⟨o, ho⟩ := hsome
          rw [ho]
          have hko : o.order_id = r.order_id := by
            have := List.find?_some ho
            simpa using this
          rw [List.find?_cons_of_pos]
          · simp [hko]
          · simp
        · rw [List.find?_cons_of_neg]
          · cases hf : l.reverse.find? (fun x => x.order_id == id) with
            | none => simp
            | some o =>
              have hko : o.order_id = id := by
                have := List.find?_some hf
                simpa using this
              have : (o.order_id == r.order_id) = false := by
                simp [hko]
                exact fun hh => hid hh.symm
              simp [this]
              intro hh
              rw [hko] at hh
              exact absurd hh.symm hid
          · simp
            exact fun hh => hid hh
    · have hmem' : (dedupBatch l).any (fun x => x.order_id == r.order_id) = false := by
        simpa using hmem
      rw [dedupInsert_key_of_not_mem _ _ hmem']
      constructor
      · have hnot : r.order_id ∉ keysOf (dedupBatch l) := by
          intro hin
          rw [List.any_eq_false] at hmem'
          simp only [keysOf, List.mem_map] at hin
          obtain ⟨x, hx, hkx⟩ := hin
          exact hmem' x hx (by simp [hkx])
        simp only [keysOf, List.map_append, List.map_cons, List.map_nil]
        rw [List.nodup_append]
        refine ⟨ihnd, List.nodup_singleton _, ?_⟩
        intro a ha hb
        simp only [List.mem_singleton] at hb
        subst hb
        exact hnot ha
      · intro id
        rw [List.find?_append, ihfind id, List.reverse_append]
        simp only [List.reverse_singleton, List.singleton_append]
        by_cases hid : r.order_id = id
        · subst hid
          have hnone : l.reverse.find? (fun x => x.order_id == r.order_id) = none := by
            rw [← ihfind]
            rw [List.find?_eq_none]
            intro x hx
            rw [List.any_eq_false] at hmem'
            exact fun hpx => hmem' x hx hpx
          rw [hnone]
          rw [List.find?_cons_of_pos]
          · simp
          · simp
        · have hone : ([r].find? fun x => x.order_id == id) = none := by
            simp
            exact fun hh => hid hh
          rw [hone]
          rw [List.find?_cons_of_neg]
          · cases l.reverse.find? (fun x => x.order_id == id) <;> rfl
          · simp
            exact fun hh => hid hh

theorem keysOf_mem_iff (m : List OrderData) (id : String) :
    id ∈ keysOf m ↔ ∃ x ∈ m, x.order_id = id := by
  simp [keysOf, List.mem_map]

theorem keysOf_mem_iff_find (m : List OrderData) (id : String) :
    id ∈ keysOf m ↔ (m.find? (fun x => x.order_id == id)).isSome := by
  rw [keysOf_mem_iff, List.find?_isSome]
  constructor
  · rintro ⟨x, hx, hk⟩; exact ⟨x, hx, by simp [hk]⟩
  · rintro ⟨x, hx, hk⟩; exact ⟨x, hx, by simpa using hk⟩

theorem dedupBatch_keys_mem (l : List OrderData) (id : String) :
    id ∈ keysOf (dedupBatch l) ↔ id ∈ keysOf l := by
  rw [keysOf_mem_iff_find, keysOf_mem_iff_find, (dedupBatch_spec l).2 id]
  constructor
  · intro h
    rw [List.find?_isSome] at h ⊢
    obtain ⟨x, hx, hpx⟩ := h
    exact ⟨x, List.mem_reverse.mp hx, hpx⟩
  · intro h
    rw [List.find?_isSome] at h ⊢
    obtain ⟨x, hx, hpx⟩ := h
    exact ⟨x, List.mem_reverse.mpr hx, hpx⟩

theorem dedupBatch_of_nodup_keys (l : List OrderData) (h : (keysOf l).Nodup) :
    dedupBatch l = l := by
  induction l using List.reverseRecOn with
  | nil => rfl
  | append_singleton l r ih =>
    have hkeys : keysOf (l ++ [r]) = keysOf l ++ [r.order_id] := by
      simp [keysOf]
    rw [hkeys] at h
    rw [List.nodup_append] at h
    obtain ⟨hl, _, hdisj⟩ := h
    have hnot : r.order_id ∉ keysOf l := by
      intro hin
      exact hdisj hin (List.mem_singleton.mpr rfl)
    rw [dedupBatch_append_one, ih hl]
    apply dedupInsert_key_of_not_mem
    rw [List.any_eq_false]
    intro x hx
    simp only [beq_iff_eq]
    intro hk
    exact hnot ((keysOf_mem_iff l r.order_id).mpr ⟨x, hx, hk⟩)

theorem dedupInsert_length_le (m : List OrderData) (r : OrderData) :
    (dedupInsert m r).length ≤ m.length + 1 := by
  unfold dedupInsert
  by_cases h : m.any (fun x => x.order_id == r.order_id) = true
  · simp [h]
  · rw [if_neg h]
    simp

theorem dedupBatch_length_le (l : List OrderData) :
    (dedupBatch l).length ≤ l.length := by
  induction l using List.reverseRecOn with
  | nil => simp [dedupBatch]
  | append_singleton l r ih =>
    rw [dedupBatch_append_one]
    calc (dedupInsert (dedupBatch l) r).length ≤ (dedupBatch l).length + 1 :=
          dedupInsert_length_le _ _
      _ ≤ l.length + 1 := by omega
      _ = (l ++ [r]).length := by simp

theorem dedupBatch_length_lt (l : List OrderData) (h : ¬ (keysOf l).Nodup) :
    (dedupBatch l).length < l.length := by
  induction l using List.reverseRecOn with
  | nil => exact absurd (by simp [keysOf]) h
  | append_singleton l r ih =>
    have hkeys : keysOf (l ++ [r]) = keysOf l ++ [r.order_id] := by
      simp [keysOf]
    rw [hkeys] at h
    rw [dedupBatch_append_one]
    by_cases hdup : (keysOf l).Nodup
    · have hin : r.order_id ∈ keysOf l := by
        by_contra hnot
        apply h
        rw [List.nodup_append]
        refine ⟨hdup, List.nodup_singleton _, ?_⟩
        intro a ha hb
        simp only [List.mem_singleton] at hb
        subst hb
        exact hnot ha
      have hin' : r.order_id ∈ keysOf (dedupBatch l) := (dedupBatch_keys_mem l _).mpr hin
      have hany : (dedupBatch l).any (fun x => x.order_id == r.order_id) = true := by
        rw [List.any_eq_true]
        obtain ⟨x, hx, hk⟩ := (keysOf_mem_iff _ _).mp hin'
        exact ⟨x, hx, by simp [hk]⟩
      rw [dedupInsert_key_of_mem _ _ hany]
      have := dedupBatch_length_le l
      simp only [List.length_map, List.length_append, List.length_singleton]
      omega
    · have := ih hdup
      calc (dedupInsert (dedupBatch l) r).length ≤ (dedupBatch l).length + 1 :=
            dedupInsert_length_le _ _
        _ < l.length + 1 := by omega
        _ = (l ++ [r]).length := by simp

theorem countP_key_eq_one (m : List OrderData) (id : String)
    (hnd : (keysOf m).Nodup) (hin : id ∈ keysOf m) :
    m.countP (fun x => x.order_id == id) = 1 := by
  induction m with
  | nil => simp [keysOf] at hin
  | cons a m ih =>
    have hk : keysOf (a :: m) = a.order_id :: keysOf m := rfl
    rw [hk] at hnd hin
    rw [List.nodup_cons] at hnd
    obtain ⟨hha, hnd'⟩ := hnd
    by_cases hid : a.order_id = id
    · subst hid
      rw [List.countP_cons_of_pos]
      · have hz : m.countP (fun x => x.order_id == a.order_id) = 0 := by
          rw [List.countP_eq_zero]
          intro x hx
          simp only [beq_iff_eq]
          intro hxa
          exact hha ((keysOf_mem_iff m a.order_id).mpr ⟨x, hx, hxa⟩)
        omega
      · simp
    · rw [List.countP_cons_of_neg]
      · apply ih hnd'
        cases hin with
        | head => exact absurd rfl hid
        | tail _ h => exact h
      · simp [hid]

/-! ### The upsert over a whole batch -/

theorem applyBatch_cons (s : Store) (r : OrderData) (d : List OrderData) (now : Int) :
    applyBatch s (r :: d) now = applyBatch (upsertOne s r now) d now := rfl

theorem applyBatch_frame (d : List OrderData) (s : Store) (now : Int) (id : String)
    (h : id ∉ keysOf d) : (applyBatch s d now).lookup id = s.lookup id := by
  induction d generalizing s with
  | nil => rfl
  | cons r d ih =>
    have hne : id ≠ r.order_id := by
      intro hh
      exact h (by simp [keysOf, hh])
    have htail : id ∉ keysOf d := by
      intro hh
      exact h (by simp [keysOf] at hh ⊢; right; exact hh)
    rw [applyBatch_cons, ih _ htail, upsertOne_lookup_frame _ _ _ _ hne]

theorem applyBatch_lookup_conflict (d : List OrderData) (s : Store) (r : OrderData)
    (now : Int) (o : StoredOrder) (hnd : (keysOf d).Nodup) (hr : r ∈ d)
    (h : s.lookup r.order_id = some o) :
    (applyBatch s d now).lookup r.order_id = some (o.setData r now) := by
  obtain ⟨d₁, d₂, rfl⟩ := List.append_of_mem hr
  have hkeys : keysOf (d₁ ++ r :: d₂) = keysOf d₁ ++ r.order_id :: keysOf d₂ := by
    simp [keysOf]
  rw [hkeys] at hnd
  have hnot₁ : r.order_id ∉ keysOf d₁ := by
    intro hin
    rw [List.nodup_append] at hnd
    exact hnd.2.2 hin (List.mem_cons_self _ _)
  have hnot₂ : r.order_id ∉ keysOf d₂ := by
    rw [List.nodup_append] at hnd
    have := hnd.2.1
    rw [List.nodup_cons] at this
    exact this.1
  have hstep : applyBatch s (d₁ ++ r :: d₂) now =
      applyBatch (upsertOne (applyBatch s d₁ now) r now) d₂ now := by
    simp [applyBatch, List.foldl_append]
  rw [hstep, applyBatch_frame _ _ _ _ hnot₂]
  have hmid : (applyBatch s d₁ now).lookup r.order_id = some o := by
    rw [applyBatch_frame _ _ _ _ hnot₁, h]
  exact upsertOne_lookup_conflict _ _ _ _ hmid

theorem applyBatch_lookup_fresh (d : List OrderData) (s : Store) (r : OrderData)
    (now : Int) (hnd : (keysOf d).Nodup) (hr : r ∈ d)
    (h : s.lookup r.order_id = none) :
    ∃ i, (applyBatch s d now).lookup r.order_id = some (newStored i r now) := by
  obtain ⟨d₁, d₂, rfl⟩ := List.append_of_mem hr
  have hkeys : keysOf (d₁ ++ r :: d₂) = keysOf d₁ ++ r.order_id :: keysOf d₂ := by
    simp [keysOf]
  rw [hkeys] at hnd
  have hnot₁ : r.order_id ∉ keysOf d₁ := by
    intro hin
    rw [List.nodup_append] at hnd
    exact hnd.2.2 hin (List.mem_cons_self _ _)
  have hnot₂ : r.order_id ∉ keysOf d₂ := by
    rw [List.nodup_append] at hnd
    have := hnd.2.1
    rw [List.nodup_cons] at this
    exact this.1
  have hstep : applyBatch s (d₁ ++ r :: d₂) now =
      applyBatch (upsertOne (applyBatch s d₁ now) r now) d₂ now := by
    simp [applyBatch, List.foldl_append]
  rw [hstep, applyBatch_frame _ _ _ _ hnot₂]
  have hmid : (applyBatch s d₁ now).lookup r.order_id = none := by
    rw [applyBatch_frame _ _ _ _ hnot₁, h]
  exact ⟨(applyBatch s d₁ now).nextId, upsertOne_lookup_fresh _ _ _ hmid⟩

/-! ### Accounting is independent of the store -/

theorem stepRow_acct (oracle : Nat → Bool) (now : Int) (st : RunState) (n : Nat)
    (row : RawRow) : (stepRow oracle now st n row).acct = stepAcct oracle n row st.acct := rfl

theorem runRows_acct (oracle : Nat → Bool) (now : Int) (rows : List RawRow) :
    ∀ (st : RunState) (n : Nat),
      (runRows oracle now st n rows).acct = runAcctRows oracle st.acct n rows := by
  induction rows with
  | nil => intro st n; rfl
  | cons r rs ih =>
    intro st n
    rw [runRows, runAcctRows, ih, stepRow_acct]

theorem flushRun_acct (oracle : Nat → Bool) (now : Int) (msg : String) (st : RunState) :
    (flushRun oracle now msg st).acct = flushAcct oracle msg st.acct := rfl

theorem runUpload_acct (oracle : Nat → Bool) (now : Int) (store : Store)
    (rows : List RawRow) :
    (runUpload oracle now store rows).acct = runUploadAcct oracle rows := by
  have hacct := runRows_acct oracle now rows ⟨initAcct, store⟩ 2
  simp only [runUpload, runUploadAcct]
  rw [apply_ite (fun st : RunState => st.acct), flushRun_acct, hacct]

/-! ### Counter invariants -/

theorem flushAcct_processed (oracle : Nat → Bool) (msg : String) (a : Acct) :
    (flushAcct oracle msg a).processed = a.processed := by
  unfold flushAcct
  by_cases h : oracle a.flushes = true
  · rw [if_pos h]
  · rw [if_neg h]

theorem stepAcct_processed (oracle : Nat → Bool) (n : Nat) (row : RawRow) (a : Acct) :
    (stepAcct oracle n row a).processed = a.processed + 1 := by
  unfold stepAcct
  cases parseRow row with
  | error e => rfl
  | ok d =>
    simp only
    by_cases h : BATCH_SIZE ≤ a.batch.length + 1
    · rw [if_pos (by simpa using h), flushAcct_processed]
    · rw [if_neg (by simpa using h)]

theorem runAcctRows_processed (oracle : Nat → Bool) (rows : List RawRow) :
    ∀ (a : Acct) (n : Nat),
      (runAcctRows oracle a n rows).processed = a.processed + rows.length := by
  induction rows with
  | nil => intro a n; simp [runAcctRows]
  | cons r rs ih =>
    intro a n
    rw [runAcctRows, ih, stepAcct_processed]
    simp
    omega

/-- `records_processed` counts every data row of the file, whatever the
database does. -/
theorem runUploadAcct_processed (oracle : Nat → Bool) (rows : List RawRow) :
    (runUploadAcct oracle rows).processed = rows.length := by
  unfold runUploadAcct
  by_cases h : (runAcctRows oracle initAcct 2 rows).batch.isEmpty = true
  · rw [if_pos h, runAcctRows_processed]
    simp [initAcct]
  · rw [if_neg h, flushAcct_processed, runAcctRows_processed]
    simp [initAcct]

theorem stepAcct_error (oracle : Nat → Bool) (n : Nat) (row : RawRow) (a : Acct)
    (e : RowError) (hp : parseRow row = .error e) :
    stepAcct oracle n row a = recordRowError { a with processed := a.processed + 1 } n e := by
  unfold stepAcct
  rw [hp]

theorem stepAcct_ok_small (oracle : Nat → Bool) (n : Nat) (row : RawRow) (a : Acct)
    (d : OrderData) (hp : parseRow row = .ok d) (hs : a.batch.length + 1 < BATCH_SIZE) :
    stepAcct oracle n row a =
      { a with processed := a.processed + 1, batch := a.batch ++ [d] } := by
  unfold stepAcct
  rw [hp]
  simp only [List.length_append, List.length_singleton]
  rw [if_neg (by omega)]

theorem stepAcct_ok_flush (oracle : Nat → Bool) (n : Nat) (row : RawRow) (a : Acct)
    (d : OrderData) (hp : parseRow row = .ok d) (hs : BATCH_SIZE ≤ a.batch.length + 1) :
    stepAcct oracle n row a =
      flushAcct oracle "Batch insert failed"
        { a with processed := a.processed + 1, batch := a.batch ++ [d] } := by
  unfold stepAcct
  rw [hp]
  simp only [List.length_append, List.length_singleton]
  rw [if_pos (by omega)]

theorem validData_cons_error (r : RawRow) (rs : List RawRow) (e : RowError)
    (hp : parseRow r = .error e) : validData (r :: rs) = validData rs := by
  simp [validData, hp, Except.toOption]

theorem validData_cons_ok (r : RawRow) (rs : List RawRow) (d : OrderData)
    (hp : parseRow r = .ok d) : validData (r :: rs) = d :: validData rs := by
  simp [validData, hp, Except.toOption]

theorem flushAcct_of_ok (oracle : Nat → Bool) (msg : String) (a : Acct)
    (h : oracle a.flushes = true) :
    flushAcct oracle msg a =
      { a with
        created := a.created + (dedupBatch a.batch).length
        batch := []
        flushes := a.flushes + 1 } := by
  unfold flushAcct
  rw [if_pos h]

theorem flushAcct_of_fail (oracle : Nat → Bool) (msg : String) (a : Acct)
    (h : oracle a.flushes = false) :
    flushAcct oracle msg a =
      { a with
        failed := a.failed + a.batch.length
        errors := a.errors ++ [msg]
        batch := []
        flushes := a.flushes + 1 } := by
  unfold flushAcct
  rw [if_neg (by simp [h])]

/-- The running balance: while the loop runs, every row read so far is
accounted as created, failed, or still buffered — provided the valid keys
seen so far are pairwise distinct, so that deduplication never shrinks a
batch. -/
theorem runAcctRows_balance (oracle : Nat → Bool) (rows : List RawRow) :
    ∀ (a : Acct) (n : Nat),
      (keysOf a.batch ++ keysOf (validData rows)).Nodup →
      a.processed = a.created + a.failed + a.batch.length →
      (runAcctRows oracle a n rows).processed =
        (runAcctRows oracle a n rows).created + (runAcctRows oracle a n rows).failed +
          (runAcctRows oracle a n rows).batch.length ∧
      (keysOf (runAcctRows oracle a n rows).batch).Nodup := by
  induction rows with
  | nil =>
    intro a n hnd hbal
    exact ⟨hbal, List.Nodup.of_append_left hnd⟩
  | cons r rs ih =>
    intro a n hnd hbal
    rw [runAcctRows]
    cases hp : parseRow r with
    | error e =>
      rw [stepAcct_error oracle n r a e hp]
      apply ih
      · rw [validData_cons_error r rs e hp] at hnd
        exact hnd
      · simp [recordRowError]
        omega
    | ok d =>
      rw [validData_cons_ok r rs d hp] at hnd
      have hnd' : (keysOf (a.batch ++ [d]) ++ keysOf (validData rs)).Nodup := by
        have : keysOf (a.batch ++ [d]) ++ keysOf (validData rs) =
            keysOf a.batch ++ d.order_id :: keysOf (validData rs) := by
          simp [keysOf]
        rw [this]
        have hsrc : keysOf a.batch ++ keysOf (d :: validData rs) =
            keysOf a.batch ++ d.order_id :: keysOf (validData rs) := rfl
        rw [hsrc] at hnd
        exact hnd
      have hbatchnd : (keysOf (a.batch ++ [d])).Nodup :=
        List.Nodup.of_append_left hnd'
      by_cases hs : a.batch.length + 1 < BATCH_SIZE
      · rw [stepAcct_ok_small oracle n r a d hp hs]
        apply ih
        · exact hnd'
        · simp
          omega
      · rw [stepAcct_ok_flush oracle n r a d hp (by omega)]
        have htailnd : (keysOf ([] : List OrderData) ++ keysOf (validData rs)).Nodup := by
          have h2 : (keysOf (validData rs)).Nodup := List.Nodup.of_append_right hnd'
          simpa [keysOf] using h2
        by_cases ho : oracle a.flushes = true
        · rw [flushAcct_of_ok _ _ _ (by simpa using ho)]
          apply ih
          · exact htailnd
          · have hded : dedupBatch (a.batch ++ [d]) = a.batch ++ [d] :=
              dedupBatch_of_nodup_keys _ hbatchnd
            simp [hded]
            omega
        · rw [flushAcct_of_fail _ _ _ (by simpa using ho)]
          apply ih
          · exact htailnd
          · simp
            omega

/-- Run-completion balance under globally distinct valid keys. -/
theorem runUploadAcct_balance (oracle : Nat → Bool) (rows : List RawRow)
    (hnd : (keysOf (validData rows)).Nodup) :
    (runUploadAcct oracle rows).processed =
      (runUploadAcct oracle rows).created + (runUploadAcct oracle rows).failed := by
  have hstart : (keysOf (initAcct.batch) ++ keysOf (validData rows)).Nodup := by
    simpa [initAcct, keysOf] using hnd
  have hmain := runAcctRows_balance oracle rows initAcct 2 hstart (by simp [initAcct])
  obtain ⟨hbal, hbnd⟩ := hmain
  unfold runUploadAcct
  by_cases h : (runAcctRows oracle initAcct 2 rows).batch.isEmpty = true
  · rw [if_pos h]
    rw [List.isEmpty_iff] at h
    rw [h] at hbal
    simpa using hbal
  · rw [if_neg h]
    by_cases ho : oracle (runAcctRows oracle initAcct 2 rows).flushes = true
    · rw [flushAcct_of_ok _ _ _ ho]
      have hded : dedupBatch (runAcctRows oracle initAcct 2 rows).batch =
          (runAcctRows oracle initAcct 2 rows).batch :=
        dedupBatch_of_nodup_keys _ hbnd
      simp [hded]
      omega
    · rw [flushAcct_of_fail _ _ _ (by simpa using ho)]
      simp
      omega

theorem rowFails_of_error (r : RawRow) (e : RowError) (hp : parseRow r = .error e) :
    rowFails r = true := by
  simp [rowFails, hp]

theorem rowFails_of_ok (r : RawRow) (d : OrderData) (hp : parseRow r = .ok d) :
    rowFails r = false := by
  simp [rowFails, hp]

/-- With a database that accepts every batch, the failure counter counts
exactly the rows the parser rejects, and the error list records the first
100 of them. -/
theorem runAcctRows_cap (rows : List RawRow) :
    ∀ (a : Acct) (n : Nat),
      a.errors.length = min a.failed 100 →
      (runAcctRows (fun _ => true) a n rows).failed = a.failed + rows.countP rowFails ∧
      (runAcctRows (fun _ => true) a n rows).errors.length =
        min (runAcctRows (fun _ => true) a n rows).failed 100 := by
  induction rows with
  | nil =>
    intro a n hlen
    exact ⟨by simp [runAcctRows], hlen⟩
  | cons r rs ih =>
    intro a n hlen
    rw [runAcctRows]
    cases hp : parseRow r with
    | error e =>
      rw [stepAcct_error _ n r a e hp]
      have hcount : (r :: rs).countP rowFails = rs.countP rowFails + 1 := by
        rw [List.countP_cons_of_pos]
        exact rowFails_of_error r e hp
      have hstep := ih (recordRowError { a with processed := a.processed + 1 } n e) (n + 1) ?_
      · obtain ⟨h1, h2⟩ := hstep
        refine ⟨?_, h2⟩
        rw [h1, hcount]
        simp [recordRowError]
        omega
      · by_cases hc : a.errors.length < 100
        · simp [recordRowError, hc]
          omega
        · simp [recordRowError, hc]
          omega
    | ok d =>
      have hcount : (r :: rs).countP rowFails = rs.countP rowFails := by
        rw [List.countP_cons_of_neg]
        simp [rowFails_of_ok r d hp]
      rw [hcount]
      by_cases hs : a.batch.length + 1 < BATCH_SIZE
      · rw [stepAcct_ok_small _ n r a d hp hs]
        exact ih _ (n + 1) hlen
      · rw [stepAcct_ok_flush _ n r a d hp (by omega)]
        rw [flushAcct_of_ok _ _ _ rfl]
        exact ih _ (n + 1) hlen

/-- Completion version of the cap invariant: with every batch accepted,
`records_failed` counts every rejected row and the error list length is
`min(#rejected, 100)`. -/
theorem runUploadAcct_cap (rows : List RawRow) :
    (runUploadAcct (fun _ => true) rows).failed = rows.countP rowFails ∧
    (runUploadAcct (fun _ => true) rows).errors.length =
      min (rows.countP rowFails) 100 := by
  have h := runAcctRows_cap rows initAcct 2 (by simp [initAcct])
  obtain ⟨h1, h2⟩ := h
  unfold runUploadAcct
  by_cases hb : (runAcctRows (fun _ => true) initAcct 2 rows).batch.isEmpty = true
  · rw [if_pos hb]
    refine ⟨by simpa [initAcct] using h1, ?_⟩
    rw [h2, h1]
    simp [initAcct]
  · rw [if_neg hb]
    rw [flushAcct_of_ok _ _ _ rfl]
    refine ⟨by simpa [initAcct] using h1, ?_⟩
    simp only
    rw [h2, h1]
    simp [initAcct]

/-! ### Which records a run touches, and how -/

theorem flushStore_of_ok (oracle : Nat → Bool) (now : Int) (a : Acct) (s : Store)
    (h : oracle a.flushes = true) :
    flushStore oracle now a s = applyBatch s (dedupBatch a.batch) now := by
  unfold flushStore
  rw [if_pos h]

theorem flushStore_of_fail (oracle : Nat → Bool) (now : Int) (a : Acct) (s : Store)
    (h : oracle a.flushes = false) :
    flushStore oracle now a s = s := by
  unfold flushStore
  rw [if_neg (by simp [h])]

theorem stepStore_error (oracle : Nat → Bool) (now : Int) (row : RawRow) (a : Acct)
    (s : Store) (e : RowError) (hp : parseRow row = .error e) :
    stepStore oracle now row a s = s := by
  unfold stepStore
  rw [hp]

theorem stepStore_ok_small (oracle : Nat → Bool) (now : Int) (row : RawRow) (a : Acct)
    (s : Store) (d : OrderData) (hp : parseRow row = .ok d)
    (hs : a.batch.length + 1 < BATCH_SIZE) :
    stepStore oracle now row a s = s := by
  unfold stepStore
  rw [hp]
  simp only [List.length_append, List.length_singleton]
  rw [if_neg (by omega)]

theorem stepStore_ok_flush (oracle : Nat → Bool) (now : Int) (row : RawRow) (a : Acct)
    (s : Store) (d : OrderData) (hp : parseRow row = .ok d)
    (hs : BATCH_SIZE ≤ a.batch.length + 1) :
    stepStore oracle now row a s = flushStore oracle now { a with batch := a.batch ++ [d] } s := by
  unfold stepStore
  rw [hp]
  simp only [List.length_append, List.length_singleton]
  rw [if_pos (by omega)]

theorem keysOf_append (l₁ l₂ : List OrderData) :
    keysOf (l₁ ++ l₂) = keysOf l₁ ++ keysOf l₂ := by
  simp [keysOf]

theorem touchedAt_upsert_self (s0 s : Store) (r : OrderData) (t : Int)
    (hf : frameOrTouched s0 s t) : touchedAt s0 (upsertOne s r t) t r.order_id := by
  cases hl : s.lookup r.order_id with
  | some o =>
    have hup := upsertOne_lookup_conflict s r t o hl
    constructor
    · rw [hup]
      simp [setData_updated_at]
    · rw [hup]
      simp [setData_created_at]
      cases hf r.order_id with
      | inl ht =>
        have h2 := ht.2
        rw [hl] at h2
        simpa using h2
      | inr he =>
        rw [← he, hl]
        simp
  | none =>
    have hup := upsertOne_lookup_fresh s r t hl
    have hs0 : s0.lookup r.order_id = none := by
      cases hf r.order_id with
      | inl ht =>
        have h1 := ht.1
        rw [hl] at h1
        simp at h1
      | inr he =>
        rw [← he]
        exact hl
    constructor
    · rw [hup]
      simp [newStored]
    · rw [hup, hs0]
      simp [newStored]

theorem frameOrTouched_upsert (s0 s : Store) (r : OrderData) (t : Int)
    (hf : frameOrTouched s0 s t) : frameOrTouched s0 (upsertOne s r t) t := by
  intro id
  by_cases hid : id = r.order_id
  · subst hid
    exact Or.inl (touchedAt_upsert_self s0 s r t hf)
  · have hfr := upsertOne_lookup_frame s r t id hid
    cases hf id with
    | inl ht =>
      left
      unfold touchedAt at ht ⊢
      rw [hfr]
      exact ht
    | inr he =>
      exact Or.inr (hfr.trans he)

theorem frameOrTouched_applyBatch (s0 : Store) (t : Int) (d : List OrderData) :
    ∀ (s : Store), frameOrTouched s0 s t →
      frameOrTouched s0 (applyBatch s d t) t ∧
      ∀ id, (touchedAt s0 s t id ∨ id ∈ keysOf d) →
        touchedAt s0 (applyBatch s d t) t id := by
  induction d with
  | nil =>
    intro s hf
    refine ⟨hf, ?_⟩
    intro id h
    cases h with
    | inl h => exact h
    | inr h => simp [keysOf] at h
  | cons r d ih =>
    intro s hf
    rw [applyBatch_cons]
    have hf' := frameOrTouched_upsert s0 s r t hf
    obtain ⟨ihf, ihtouch⟩ := ih (upsertOne s r t) hf'
    refine ⟨ihf, ?_⟩
    intro id h
    apply ihtouch
    cases h with
    | inl ht =>
      by_cases hid : id = r.order_id
      · subst hid
        exact Or.inl (touchedAt_upsert_self s0 s r t hf)
      · left
        unfold touchedAt at ht ⊢
        rw [upsertOne_lookup_frame s r t id hid]
        exact ht
    | inr hmem =>
      have : id = r.order_id ∨ id ∈ keysOf d := by
        simpa [keysOf] using hmem
      cases this with
      | inl hid =>
        subst hid
        exact Or.inl (touchedAt_upsert_self s0 s r t hf)
      | inr hd => exact Or.inr hd

theorem runRows_touch (s0 : Store) (t : Int) (rows : List RawRow) :
    ∀ (st : RunState) (n : Nat),
      frameOrTouched s0 st.store t →
      frameOrTouched s0 (runRows (fun _ => true) t st n rows).store t ∧
      ∀ id,
        (touchedAt s0 st.store t id ∨ id ∈ keysOf st.acct.batch ∨
          id ∈ keysOf (validData rows)) →
        (touchedAt s0 (runRows (fun _ => true) t st n rows).store t id ∨
          id ∈ keysOf (runRows (fun _ => true) t st n rows).acct.batch) := by
  induction rows with
  | nil =>
    intro st n hf
    refine ⟨hf, ?_⟩
    intro id h
    rcases h with ht | hb | hv
    · exact Or.inl ht
    · exact Or.inr hb
    · simp [validData, keysOf] at hv
  | cons r rs ih =>
    intro st n hf
    rw [runRows]
    have hsplit : stepRow (fun _ => true) t st n r =
        ⟨stepAcct (fun _ => true) n r st.acct,
          stepStore (fun _ => true) t r st.acct st.store⟩ := rfl
    cases hp : parseRow r with
    | error e =>
      have hstore := stepStore_error (fun _ => true) t r st.acct st.store e hp
      have hacct := stepAcct_error (fun _ => true) n r st.acct e hp
      rw [hsplit, hstore, hacct]
      have hbatch : (recordRowError { st.acct with processed := st.acct.processed + 1 } n e).batch
          = st.acct.batch := by
        simp [recordRowError]
      obtain ⟨ihf, ihtouch⟩ :=
        ih ⟨recordRowError { st.acct with processed := st.acct.processed + 1 } n e, st.store⟩
          (n + 1) hf
      refine ⟨ihf, ?_⟩
      intro id h
      apply ihtouch
      rw [validData_cons_error r rs e hp] at h
      simpa [hbatch] using h
    | ok d =>
      by_cases hs : st.acct.batch.length + 1 < BATCH_SIZE
      · have hstore := stepStore_ok_small (fun _ => true) t r st.acct st.store d hp hs
        have hacct := stepAcct_ok_small (fun _ => true) n r st.acct d hp hs
        rw [hsplit, hstore, hacct]
        obtain ⟨ihf, ihtouch⟩ :=
          ih ⟨{ st.acct with processed := st.acct.processed + 1, batch := st.acct.batch ++ [d] },
            st.store⟩ (n + 1) hf
        refine ⟨ihf, ?_⟩
        intro id h
        apply ihtouch
        rw [validData_cons_ok r rs d hp] at h
        rcases h with ht | hb | hv
        · exact Or.inl ht
        · refine Or.inr (Or.inl ?_)
          rw [keysOf_append]
          exact List.mem_append_left _ hb
        · have : id = d.order_id ∨ id ∈ keysOf (validData rs) := by
            simpa [keysOf] using hv
          cases this with
          | inl hid =>
            refine Or.inr (Or.inl ?_)
            rw [keysOf_append]
            apply List.mem_append_right
            simp [keysOf, hid]
          | inr h2 => exact Or.inr (Or.inr h2)
      · have hstore := stepStore_ok_flush (fun _ => true) t r st.acct st.store d hp (by omega)
        have hacct := stepAcct_ok_flush (fun _ => true) n r st.acct d hp (by omega)
        rw [hsplit, hstore, hacct]
        rw [flushStore_of_ok _ _ _ _ rfl, flushAcct_of_ok _ _ _ rfl]
        have happ := frameOrTouched_applyBatch s0 t
          (dedupBatch (st.acct.batch ++ [d])) st.store hf
        obtain ⟨happf, happtouch⟩ := happ
        obtain ⟨ihf, ihtouch⟩ :=
          ih ⟨_, applyBatch st.store (dedupBatch (st.acct.batch ++ [d])) t⟩ (n + 1) happf
        refine ⟨ihf, ?_⟩
        intro id h
        apply ihtouch
        rw [validData_cons_ok r rs d hp] at h
        rcases h with ht | hb | hv
        · exact Or.inl (happtouch id (Or.inl ht))
        · refine Or.inl (happtouch id (Or.inr ?_))
          rw [dedupBatch_keys_mem, keysOf_append]
          exact List.mem_append_left _ hb
        · have : id = d.order_id ∨ id ∈ keysOf (validData rs) := by
            simpa [keysOf] using hv
          cases this with
          | inl hid =>
            refine Or.inl (happtouch id (Or.inr ?_))
            rw [dedupBatch_keys_mem, keysOf_append]
            apply List.mem_append_right
            simp [keysOf, hid]
          | inr h2 => exact Or.inr (Or.inr h2)

/-- With every batch accepted, a run upserts (at run time `t`) every key
that occurs among its valid rows. -/
theorem runUpload_touch (s0 : Store) (t : Int) (rows : List RawRow) :
    ∀ id ∈ keysOf (validData rows),
      touchedAt s0 (runUpload (fun _ => true) t s0 rows).store t id := by
  intro id hid
  have hstart : frameOrTouched s0 s0 t := fun _ => Or.inr rfl
  obtain ⟨hf, htouch⟩ := runRows_touch s0 t rows ⟨initAcct, s0⟩ 2 hstart
  have h2 := htouch id (Or.inr (Or.inr hid))
  simp only [runUpload]
  by_cases hb : (runRows (fun _ => true) t ⟨initAcct, s0⟩ 2 rows).acct.batch.isEmpty = true
  · rw [if_pos hb]
    cases h2 with
    | inl ht => exact ht
    | inr hmem =>
      rw [List.isEmpty_iff] at hb
      rw [hb] at hmem
      simp [keysOf] at hmem
  · rw [if_neg hb]
    show touchedAt s0 (flushStore (fun _ => true) t _ _) t id
    rw [flushStore_of_ok _ _ _ _ rfl]
    have happ := frameOrTouched_applyBatch s0 t
      (dedupBatch (runRows (fun _ => true) t ⟨initAcct, s0⟩ 2 rows).acct.batch)
      (runRows (fun _ => true) t ⟨initAcct, s0⟩ 2 rows).store hf
    obtain ⟨_, happtouch⟩ := happ
    cases h2 with
    | inl ht => exact happtouch id (Or.inl ht)
    | inr hmem =>
      refine happtouch id (Or.inr ?_)
      rw [dedupBatch_keys_mem]
      exact hmem

/-! ### Shape of successful and failed row parses -/

theorem parseRow_ok_shape (row : RawRow) (d : OrderData) (h : parseRow row = .ok d) :
    ∃ q up ta od, row.quantity = some q ∧ row.unit_price = some up ∧
      row.total_amount = some ta ∧ row.order_date = some od ∧
      d = row.toData q up ta od := by
  cases hq : row.quantity with
  | none => simp [parseRow, hq] at h
  | some q =>
    cases hup : row.unit_price with
    | none => simp [parseRow, hq, hup] at h
    | some up =>
      cases hta : row.total_amount with
      | none => simp [parseRow, hq, hup, hta] at h
      | some ta =>
        cases hod : row.order_date with
        | none => simp [parseRow, hq, hup, hta, hod] at h
        | some od =>
          refine ⟨q, up, ta, od, rfl, rfl, rfl, rfl, ?_⟩
          simp only [parseRow, hq, hup, hta, hod] at h
          split_ifs at h <;> simp_all

theorem parseRow_ok_valid (row : RawRow) (d : OrderData) (h : parseRow row = .ok d) :
    d.order_id ≠ "" ∧ d.customer_email ≠ "" ∧ 0 < d.quantity ∧ 0 < d.unit_price := by
  obtain ⟨q, up, ta, od, hq, hup, hta, hod, hd⟩ := parseRow_ok_shape row d h
  simp only [parseRow, hq, hup, hta, hod] at h
  split_ifs at h with h1 h2 h3 h4
  subst hd
  exact ⟨h1, h2, by omega, not_le.mp h4⟩

theorem parseRow_parse_failure (row : RawRow)
    (hnone : row.quantity = none ∨ row.unit_price = none ∨ row.total_amount = none ∨
      row.order_date = none) :
    rowFails row = true ∧
    ∀ e, parseRow row = .error e → isParseFailure e = true ∧ e.message ≠ "" := by
  cases hq : row.quantity with
  | none =>
    have hp : parseRow row = .error .quantityParse := by simp [parseRow, hq]
    refine ⟨rowFails_of_error row _ hp, ?_⟩
    intro e he
    rw [hp] at he
    injection he with he
    subst he
    exact ⟨rfl, by simp [RowError.message]⟩
  | some q =>
    cases hup : row.unit_price with
    | none =>
      have hp : parseRow row = .error .unitPriceParse := by simp [parseRow, hq, hup]
      refine ⟨rowFails_of_error row _ hp, ?_⟩
      intro e he
      rw [hp] at he
      injection he with he
      subst he
      exact ⟨rfl, by simp [RowError.message]⟩
    | some up =>
      cases hta : row.total_amount with
      | none =>
        have hp : parseRow row = .error .totalAmountParse := by simp [parseRow, hq, hup, hta]
        refine ⟨rowFails_of_error row _ hp, ?_⟩
        intro e he
        rw [hp] at he
        injection he with he
        subst he
        exact ⟨rfl, by simp [RowError.message]⟩
      | some ta =>
        cases hod : row.order_date with
        | none =>
          have hp : parseRow row = .error .orderDateParse := by
            simp [parseRow, hq, hup, hta, hod]
          refine ⟨rowFails_of_error row _ hp, ?_⟩
          intro e he
          rw [hp] at he
          injection he with he
          subst he
          exact ⟨rfl, by simp [RowError.message]⟩
        | some od =>
          rcases hnone with h | h | h | h <;> simp_all

theorem parseRow_spec_order (row : RawRow) (q : Int) (up ta : Rat) (od : Int)
    (hq : row.quantity = some q) (hup : row.unit_price = some up)
    (hta : row.total_amount = some ta) (hod : row.order_date = some od) :
    parseRow row =
      (match specFirstViolation (row.toData q up ta od) with
       | some e => .error e
       | none => .ok (row.toData q up ta od)) := by
  simp only [parseRow, hq, hup, hta, hod, specFirstViolation, not_lt]
  split_ifs <;> rfl

/-! ### The claims -/

/-- C1 (counterexample): the claimed identity
`records_processed = records_created + records_failed` fails on a file of
two valid rows sharing `order_id` `A`: the run reports 2 processed,
1 created, 0 failed, because the successful flush counts the
deduplicated batch. -/
theorem claim_C1_counterexample :
    ¬ ((runUploadAcct (fun _ => true) [sampleRow "A" "Pending", sampleRow "A" "shipped"]).processed =
       (runUploadAcct (fun _ => true) [sampleRow "A" "Pending", sampleRow "A" "shipped"]).created +
       (runUploadAcct (fun _ => true) [sampleRow "A" "Pending", sampleRow "A" "shipped"]).failed) := by
  decide

/-- C1 (amended): whenever the valid rows of the file carry pairwise
distinct `order_id`s — so intra-batch deduplication never collapses
anything — every completed run satisfies
`records_processed = records_created + records_failed`, whatever the
database oracle does. -/
theorem claim_C1_theorem (oracle : Nat → Bool) (now : Int) (store : Store)
    (rows : List RawRow) (hnd : (keysOf (validData rows)).Nodup) :
    (runUpload oracle now store rows).acct.processed =
      (runUpload oracle now store rows).acct.created +
        (runUpload oracle now store rows).acct.failed := by
  rw [runUpload_acct]
  exact runUploadAcct_balance oracle rows hnd

/-- C1 (witness): the balance identity on a concrete two-key file. -/
theorem claim_C1_witness :
    (runUpload (fun _ => true) 0 emptyStore [sampleRow "A" "p", sampleRow "B" "q"]).acct.processed =
      (runUpload (fun _ => true) 0 emptyStore [sampleRow "A" "p", sampleRow "B" "q"]).acct.created +
        (runUpload (fun _ => true) 0 emptyStore [sampleRow "A" "p", sampleRow "B" "q"]).acct.failed :=
  claim_C1_theorem (fun _ => true) 0 emptyStore _ (by decide)

/-- C2 (counterexample): a row violating several listed constraints —
empty `customer_name`, non-positive `total_amount`, status outside the
enumeration, non-email-shaped address — is accepted by the upload path,
counted as created, and reaches the store. -/
theorem claim_C2_counterexample :
    (runUploadAcct (fun _ => true) [sneakyRow]).created = 1 ∧
    (runUploadAcct (fun _ => true) [sneakyRow]).failed = 0 ∧
    (((runUpload (fun _ => true) 0 emptyStore [sneakyRow]).store.lookup "A").map
      (fun o => (o.customer_name, o.total_amount, o.status))) = some ("", -5, "bogus") := by
  refine ⟨by decide, by decide, by decide⟩

/-- C2 (amended): before a record is considered valid, the upload path
itself enforces exactly four of the listed constraints — `order_id`
non-empty, `customer_email` non-empty, `quantity > 0`, `unit_price > 0` —
and a row rejected by them is counted as failed and leaves batch and
store untouched.  The `order_id` length bound is left to the store's
`String(50)` column (a violating batch fails at the upsert and is counted
failed), but the listed constraints on email shape,
`customer_name` / `product_name` non-emptiness, `total_amount > 0` and
the status enumeration are enforced by neither layer: a row violating
only those is accepted, counted as created, and stored (see the
counterexample). -/
theorem claim_C2_theorem :
    (∀ row d, parseRow row = .ok d →
      d.order_id ≠ "" ∧ d.customer_email ≠ "" ∧ 0 < d.quantity ∧ 0 < d.unit_price) ∧
    (∀ (oracle : Nat → Bool) (now : Int) (st : RunState) (n : Nat) (row : RawRow)
        (e : RowError), parseRow row = .error e →
      (stepRow oracle now st n row).store = st.store ∧
      (stepRow oracle now st n row).acct.batch = st.acct.batch ∧
      (stepRow oracle now st n row).acct.failed = st.acct.failed + 1 ∧
      (stepRow oracle now st n row).acct.created = st.acct.created) := by
  constructor
  · exact parseRow_ok_valid
  · intro oracle now st n row e hp
    have hsplit : stepRow oracle now st n row =
        ⟨stepAcct oracle n row st.acct, stepStore oracle now row st.acct st.store⟩ := rfl
    rw [hsplit, stepStore_error oracle now row st.acct st.store e hp,
      stepAcct_error oracle n row st.acct e hp]
    refine ⟨rfl, ?_, ?_, rfl⟩ <;> simp [recordRowError]

/-- C2 (witness): concrete instances of both parts on the blank row and a
valid row. -/
theorem claim_C2_witness :
    (0 : Int) < sampleData.quantity ∧
    (stepRow (fun _ => true) 0 dupState 2 blankRow).acct.failed = dupState.acct.failed + 1 := by
  constructor
  · exact (claim_C2_theorem.1 (sampleRow "A" "pending") sampleData (by rfl)).2.2.1
  · exact (claim_C2_theorem.2 (fun _ => true) 0 dupState 2 blankRow .orderIdRequired
      (by rfl)).2.2.1

/-- C3: the row parser (a) strips whitespace on every string field,
lowercasing `status`, (b) turns any conversion failure of
`quantity` / `unit_price` / `total_amount` / `order_date` into a row-level
error with a non-empty human-readable cause, after which (c) the run still
processes every remaining row to completion, and (d) when all conversions
succeed the validation checks fail fast in the fixed order `order_id` →
`customer_email` → `quantity` → `unit_price`, reporting the first
violation. -/
theorem claim_C3_theorem :
    (∀ row d, parseRow row = .ok d →
      d.order_id = pyStrip row.order_id ∧
      d.customer_email = pyStrip row.customer_email ∧
      d.customer_name = pyStrip row.customer_name ∧
      d.product_name = pyStrip row.product_name ∧
      d.status = pyLower (pyStrip row.status)) ∧
    (∀ row, (row.quantity = none ∨ row.unit_price = none ∨ row.total_amount = none ∨
        row.order_date = none) →
      rowFails row = true ∧
      ∀ e, parseRow row = .error e → isParseFailure e = true ∧ e.message ≠ "") ∧
    (∀ (oracle : Nat → Bool) (now : Int) (store : Store) (rows : List RawRow),
      (runUpload oracle now store rows).acct.processed = rows.length) ∧
    (∀ row (q : Int) (up ta : Rat) (od : Int), row.quantity = some q →
      row.unit_price = some up → row.total_amount = some ta → row.order_date = some od →
      parseRow row =
        (match specFirstViolation (row.toData q up ta od) with
         | some e => .error e
         | none => .ok (row.toData q up ta od))) := by
  refine ⟨?_, ?_, ?_, ?_⟩
  · intro row d h
    obtain ⟨q, up, ta, od, _, _, _, _, hd⟩ := parseRow_ok_shape row d h
    subst hd
    exact ⟨rfl, rfl, rfl, rfl, rfl⟩
  · exact parseRow_parse_failure
  · intro oracle now store rows
    rw [runUpload_acct]
    exact runUploadAcct_processed oracle rows
  · exact parseRow_spec_order

/-- C3 (witness): concrete instances — a no-quantity row fails as a parse
failure, a two-row file reports 2 processed, and the blank row (empty key
and non-positive quantity) reports the `order_id` violation first. -/
theorem claim_C3_witness :
    rowFails { blankRow with quantity := none } = true ∧
    (runUpload (fun _ => true) 0 emptyStore [blankRow, sampleRow "A" "p"]).acct.processed = 2 ∧
    parseRow blankRow = .error .orderIdRequired := by
  refine ⟨(claim_C3_theorem.2.1 _ (Or.inl rfl)).1, claim_C3_theorem.2.2.1 _ 0 emptyStore _, ?_⟩
  have h := claim_C3_theorem.2.2.2 blankRow 0 0 0 0 rfl rfl rfl rfl
  rw [h]
  rfl

/-- C4: under a successful flush, the deduplicated batch holds exactly one
record per repeated `order_id` — the last occurrence in file order — the
stored row carries that record's payload, and no failure is counted for
the superseded earlier occurrences. -/
theorem claim_C4_theorem (oracle : Nat → Bool) (now : Int) (msg : String)
    (st : RunState) (id : String)
    (h2 : 2 ≤ (st.acct.batch.filter (fun r => r.order_id == id)).length)
    (hok : oracle st.acct.flushes = true) :
    (dedupBatch st.acct.batch).countP (fun r => r.order_id == id) = 1 ∧
    (dedupBatch st.acct.batch).find? (fun r => r.order_id == id) =
      st.acct.batch.reverse.find? (fun r => r.order_id == id) ∧
    (flushRun oracle now msg st).acct.failed = st.acct.failed ∧
    (flushRun oracle now msg st).acct.created =
      st.acct.created + (dedupBatch st.acct.batch).length ∧
    ((flushRun oracle now msg st).store.lookup id).map StoredOrder.payload =
      st.acct.batch.reverse.find? (fun r => r.order_id == id) := by
  obtain ⟨hnd, hfind⟩ := dedupBatch_spec st.acct.batch
  have hpos : 0 < (st.acct.batch.filter (fun r => r.order_id == id)).length := by omega
  obtain ⟨x, hx⟩ := List.exists_mem_of_length_pos hpos
  have hx' := List.mem_filter.mp hx
  have hmem : id ∈ keysOf st.acct.batch :=
    (keysOf_mem_iff _ _).mpr ⟨x, hx'.1, by simpa using hx'.2⟩
  have hmemd : id ∈ keysOf (dedupBatch st.acct.batch) := (dedupBatch_keys_mem _ _).mpr hmem
  have hcount := countP_key_eq_one _ id hnd hmemd
  have hsome : ((dedupBatch st.acct.batch).find? (fun r => r.order_id == id)).isSome :=
    (keysOf_mem_iff_find _ _).mp hmemd
  obtain ⟨rstar, hr⟩ := Option.isSome_iff_exists.mp hsome
  have hrkey : rstar.order_id = id := by simpa using List.find?_some hr
  have hrmem : rstar ∈ dedupBatch st.acct.batch := List.mem_of_find?_eq_some hr
  refine ⟨hcount, hfind id, ?_, ?_, ?_⟩
  · rw [flushRun_acct, flushAcct_of_ok _ _ _ hok]
  · rw [flushRun_acct, flushAcct_of_ok _ _ _ hok]
  · show ((flushStore oracle now st.acct st.store).lookup id).map StoredOrder.payload = _
    rw [flushStore_of_ok _ _ _ _ hok, ← hfind id, hr, ← hrkey]
    cases hl : st.store.lookup rstar.order_id with
    | some o =>
      rw [applyBatch_lookup_conflict _ _ _ _ _ hnd hrmem hl]
      have hkey : o.order_id = rstar.order_id := by simpa using List.find?_some hl
      simp [setData_payload o rstar now hkey]
    | none =>
      obtain ⟨i, hi⟩ := applyBatch_lookup_fresh _ _ _ _ hnd hrmem hl
      rw [hi]
      simp [newStored_payload]

/-- C4 (witness): flushing the duplicate-key batch
`[sampleData, sampleData2]` stores exactly one record under `A`, with the
later payload, and counts no failure. -/
theorem claim_C4_witness :
    (dedupBatch dupAcct.batch).countP (fun r => r.order_id == "A") = 1 ∧
    (flushRun (fun _ => true) 0 "Batch insert failed" dupState).acct.failed = 0 ∧
    ((flushRun (fun _ => true) 0 "Batch insert failed" dupState).store.lookup "A").map
      StoredOrder.payload =
      dupAcct.batch.reverse.find? (fun r => r.order_id == "A") := by
  have h := claim_C4_theorem (fun _ => true) 0 "Batch insert failed" dupState "A"
    (by decide) rfl
  exact ⟨h.1, h.2.2.1, h.2.2.2.2⟩

theorem newStored_created_at (i : Nat) (r : OrderData) (now : Int) :
    (newStored i r now).created_at = now := rfl

theorem newStored_updated_at (i : Nat) (r : OrderData) (now : Int) :
    (newStored i r now).updated_at = now := rfl

/-- C5: applying a deduplicated batch upserts each record: an existing
key keeps `id`, `order_id` and `created_at`, has every payload column
overwritten and `updated_at` forced to the statement time; a fresh key is
inserted with the payload and both timestamps set to the statement
time. -/
theorem claim_C5_theorem (s : Store) (d : List OrderData) (r : OrderData) (now : Int)
    (hnd : (keysOf d).Nodup) (hr : r ∈ d) :
    (∀ o, s.lookup r.order_id = some o →
      (applyBatch s d now).lookup r.order_id = some (o.setData r now) ∧
      (o.setData r now).payload = r ∧
      (o.setData r now).id = o.id ∧
      (o.setData r now).order_id = o.order_id ∧
      (o.setData r now).created_at = o.created_at ∧
      (o.setData r now).updated_at = now) ∧
    (s.lookup r.order_id = none →
      ((applyBatch s d now).lookup r.order_id).map
        (fun o => (o.payload, o.created_at, o.updated_at)) = some (r, now, now)) := by
  constructor
  · intro o ho
    have hkey : o.order_id = r.order_id := by simpa using List.find?_some ho
    exact ⟨applyBatch_lookup_conflict d s r now o hnd hr ho,
      setData_payload o r now hkey, rfl, rfl, rfl, rfl⟩
  · intro ho
    obtain ⟨i, hi⟩ := applyBatch_lookup_fresh d s r now hnd hr ho
    rw [hi]
    simp [newStored_payload, newStored_created_at, newStored_updated_at]

/-- C5 (witness): upserting `sampleData` into the empty store inserts it
with both timestamps set to the statement time. -/
theorem claim_C5_witness :
    ((applyBatch emptyStore [sampleData] 3).lookup sampleData.order_id).map
      (fun o => (o.payload, o.created_at, o.updated_at)) = some (sampleData, 3, 3) :=
  (claim_C5_theorem emptyStore [sampleData] sampleData 3 (by decide)
    (List.mem_singleton.mpr rfl)).2 rfl

/-- C6: when the database rejects a flush, the store is left unchanged,
nothing from the batch is counted as created, every buffered record is
counted as failed, exactly one aggregated error message is appended, the
buffer empties, and the run still processes every row of the file. -/
theorem claim_C6_theorem (oracle : Nat → Bool) (now : Int) (msg : String)
    (st : RunState) (hfail : oracle st.acct.flushes = false) :
    (flushRun oracle now msg st).store = st.store ∧
    (flushRun oracle now msg st).acct.created = st.acct.created ∧
    (flushRun oracle now msg st).acct.failed = st.acct.failed + st.acct.batch.length ∧
    (flushRun oracle now msg st).acct.errors = st.acct.errors ++ [msg] ∧
    (flushRun oracle now msg st).acct.batch = [] ∧
    (∀ (store : Store) (rows : List RawRow),
      (runUpload oracle now store rows).acct.processed = rows.length) := by
  unfold flushRun
  rw [flushStore_of_fail _ _ _ _ hfail, flushAcct_of_fail _ _ _ hfail]
  refine ⟨rfl, rfl, rfl, rfl, rfl, ?_⟩
  intro store rows
  rw [runUpload_acct]
  exact runUploadAcct_processed oracle rows

/-- C6 (witness): a rejected flush of the two-record batch counts both
records as failed and leaves the empty store empty. -/
theorem claim_C6_witness :
    (flushRun (fun _ => false) 0 "Batch insert failed" dupState).store = emptyStore ∧
    (flushRun (fun _ => false) 0 "Batch insert failed" dupState).acct.failed = 0 + 2 := by
  have h := claim_C6_theorem (fun _ => false) 0 "Batch insert failed" dupState rfl
  exact ⟨h.1, h.2.2.1⟩

/-- C7: a filename not ending in `.csv`, a payload above the 100 MiB
ceiling, or undecodable bytes each abort the endpoint with a 400 client
error before any row is processed, leaving the store unchanged and
producing no summary report. -/
theorem claim_C7_theorem (oracle : Nat → Bool) (now : Int) (store : Store) (p : Payload)
    (h : pyEndsWith p.filename ".csv" = false ∨ MAX_FILE_SIZE < p.size ∨
      p.decodable = false) :
    (uploadOrdersCsv oracle now store p).1.isFatal400 = true ∧
    (uploadOrdersCsv oracle now store p).2 = store := by
  unfold uploadOrdersCsv
  by_cases h1 : pyEndsWith p.filename ".csv" = false
  · rw [if_pos h1]
    exact ⟨rfl, rfl⟩
  · rw [if_neg h1]
    by_cases h2 : MAX_FILE_SIZE < p.size
    · rw [if_pos h2]
      exact ⟨rfl, rfl⟩
    · rw [if_neg h2]
      by_cases h3 : p.decodable = false
      · rw [if_pos h3]
        exact ⟨rfl, rfl⟩
      · rcases h with h | h | h <;> contradiction

/-- C7 (witness): a 101 MiB upload named `orders.csv` is rejected with a
400 and the store is untouched. -/
theorem claim_C7_witness :
    (uploadOrdersCsv (fun _ => true) 0 emptyStore
      ⟨"orders.csv", 101 * 1024 * 1024, true, [sampleRow "A" "p"]⟩).1.isFatal400 = true ∧
    (uploadOrdersCsv (fun _ => true) 0 emptyStore
      ⟨"orders.csv", 101 * 1024 * 1024, true, [sampleRow "A" "p"]⟩).2 = emptyStore :=
  claim_C7_theorem (fun _ => true) 0 emptyStore _ (Or.inr (Or.inl (by decide)))

set_option maxRecDepth 4000 in
/-- C8 (counterexample): the error list is not capped at 100 entries —
100 malformed rows followed by a valid row whose flush fails produce 101
messages, because the batch-failure append at `upload.py:134`/`172`
bypasses the cap. -/
theorem claim_C8_counterexample :
    ¬ ((runUploadAcct (fun _ => false) manyBadRows).errors.length ≤ 100) := by
  decide

/-- C8 (amended): row-level error messages are capped at 100 while every
failure stays counted — with every batch accepted, `records_failed` equals
the number of rejected rows and the error list length is exactly
`min(#rejected, 100)` — but a batch-failure message is appended without
consulting the cap, so runs with rejected batches can exceed 100
entries. -/
theorem claim_C8_theorem :
    (∀ rows : List RawRow,
      (runUploadAcct (fun _ => true) rows).failed = rows.countP rowFails ∧
      (runUploadAcct (fun _ => true) rows).errors.length =
        min (rows.countP rowFails) 100) ∧
    (∀ (oracle : Nat → Bool) (msg : String) (a : Acct), oracle a.flushes = false →
      (flushAcct oracle msg a).errors = a.errors ++ [msg]) := by
  constructor
  · exact runUploadAcct_cap
  · intro oracle msg a h
    rw [flushAcct_of_fail _ _ _ h]

set_option maxRecDepth 4000 in
/-- C8 (witness): the capped count on the 101-row file under an accepting
database, and the uncapped batch append. -/
theorem claim_C8_witness :
    (runUploadAcct (fun _ => true) manyBadRows).errors.length =
      min (manyBadRows.countP rowFails) 100 ∧
    (flushAcct (fun _ => false) "Final batch insert failed" initAcct).errors =
      ["Final batch insert failed"] :=
  ⟨(claim_C8_theorem.1 manyBadRows).2,
    claim_C8_theorem.2 (fun _ => false) "Final batch insert failed" initAcct rfl⟩

/-- C9: re-uploading a fully valid file against an accepting database
yields the same `records_created`, keeps `created_at` of every touched
record, and moves `updated_at` from the first run's time to the second
run's (strictly later) time. -/
theorem claim_C9_theorem (t₁ t₂ : Int) (store0 : Store) (rows : List RawRow)
    (s₁ s₂ : RunState)
    (hv : ∀ r ∈ rows, rowFails r = false) (ht : t₁ < t₂)
    (h₁ : s₁ = runUpload (fun _ => true) t₁ store0 rows)
    (h₂ : s₂ = runUpload (fun _ => true) t₂ s₁.store rows) :
    s₂.acct.created = s₁.acct.created ∧
    ∀ id ∈ keysOf (validData rows),
      ((s₁.store.lookup id).map fun o => o.updated_at) = some t₁ ∧
      ((s₂.store.lookup id).map fun o => o.updated_at) = some t₂ ∧
      ((s₂.store.lookup id).map fun o => o.created_at) =
        ((s₁.store.lookup id).map fun o => o.created_at) ∧
      ((s₁.store.lookup id).map fun o => o.updated_at) ≠
        ((s₂.store.lookup id).map fun o => o.updated_at) := by
  subst h₁
  subst h₂
  constructor
  · rw [runUpload_acct, runUpload_acct]
  · intro id hid
    obtain ⟨hu1, hc1⟩ := runUpload_touch store0 t₁ rows id hid
    obtain ⟨hu2, hc2⟩ :=
      runUpload_touch (runUpload (fun _ => true) t₁ store0 rows).store t₂ rows id hid
    have hex : ∃ o₁,
        (runUpload (fun _ => true) t₁ store0 rows).store.lookup id = some o₁ := by
      cases hl : (runUpload (fun _ => true) t₁ store0 rows).store.lookup id with
      | none =>
        rw [hl] at hu1
        simp at hu1
      | some o => exact ⟨o, rfl⟩
    obtain ⟨o₁, ho₁⟩ := hex
    refine ⟨hu1, hu2, ?_, ?_⟩
    · rw [hc2, ho₁]
      simp
    · rw [hu1, hu2]
      simp
      omega

/-- C9 (witness): two runs of a one-row file at times 1 and 2. -/
theorem claim_C9_witness :
    (runUpload (fun _ => true) 2
        (runUpload (fun _ => true) 1 emptyStore [sampleRow "A" "pending"]).store
        [sampleRow "A" "pending"]).acct.created =
      (runUpload (fun _ => true) 1 emptyStore [sampleRow "A" "pending"]).acct.created ∧
    (((runUpload (fun _ => true) 1 emptyStore [sampleRow "A" "pending"]).store.lookup "A").map
      fun o => o.updated_at) = some 1 := by
  have h := claim_C9_theorem 1 2 emptyStore [sampleRow "A" "pending"] _ _
    (by decide) (by decide) rfl rfl
  exact ⟨h.1, (h.2 "A" (by decide)).1⟩

/-- C10: a failed flush counts the pre-deduplication buffer size as
failed, a successful one counts the post-deduplication size as created,
and a buffer with a repeated key strictly shrinks under deduplication, so
a duplicate contributes more to a failing batch's failed count than to a
succeeding batch's created count. -/
theorem claim_C10_theorem (oracle : Nat → Bool) (msg : String) (a : Acct) :
    (oracle a.flushes = false →
      (flushAcct oracle msg a).failed = a.failed + a.batch.length ∧
      (flushAcct oracle msg a).created = a.created) ∧
    (oracle a.flushes = true →
      (flushAcct oracle msg a).created = a.created + (dedupBatch a.batch).length ∧
      (flushAcct oracle msg a).failed = a.failed) ∧
    (¬ (keysOf a.batch).Nodup → (dedupBatch a.batch).length < a.batch.length) := by
  refine ⟨?_, ?_, ?_⟩
  · intro h
    rw [flushAcct_of_fail _ _ _ h]
    exact ⟨rfl, rfl⟩
  · intro h
    rw [flushAcct_of_ok _ _ _ h]
    exact ⟨rfl, rfl⟩
  · exact dedupBatch_length_lt a.batch

/-- C10 (witness): on the duplicate-key batch, a failing flush counts 2
failed while a succeeding flush would have counted only the 1
deduplicated record. -/
theorem claim_C10_witness :
    (flushAcct (fun _ => false) "Batch insert failed" dupAcct).failed = 0 + 2 ∧
    (dedupBatch dupAcct.batch).length < dupAcct.batch.length := by
  have h := claim_C10_theorem (fun _ => false) "Batch insert failed" dupAcct
  exact ⟨(h.1 rfl).1, h.2.2 (by decide)⟩

end OrdersUpload
